import Mathlib

/-!
Shallow embedding of the child-process execution core of `taskhelper`
(`src/command.rs` and the synchronous `run` path of `src/main.rs`).

Rust byte buffers are modelled as `List Nat`; a C string is a null-free
byte buffer, and `CString::new` fails exactly when the buffer contains a
NUL byte (value `0`).  Fallible Rust functions returning `Result` are
modelled with `Except String`; a Rust panic or `unwrap` failure is
modelled as `Option` with `none` standing for the panic.
-/

namespace Taskhelper

abbrev Bytes := List Nat

/-- Model of `CString::new(bytes)`: succeeds with the same bytes iff no NUL
byte occurs anywhere in the buffer. -/
def cstring_new (b : Bytes) : Option Bytes :=
  if 0 ∈ b then none else some b

/-- Model of `path_to_cstring` (command.rs:37-40): `CString::new(bytes).unwrap()`.
The `none` result models the `unwrap` panic on a path containing a NUL byte. -/
def path_to_cstring (p : Bytes) : Option Bytes :=
  cstring_new p

/-- `StdioType` (command.rs:42-46): which child stream a line came from. -/
inductive StdioType
  | Stdout
  | Stderr
deriving DecidableEq, Repr

/-- `EnvVar` (command.rs:155-159): a key/value pair already marshaled into
C strings.  No builder method ever constructs one in the source, so the
environment list stays empty, but the fields are modelled faithfully. -/
structure EnvVar where
  key : Bytes
  value : Bytes
deriving DecidableEq, Repr

/-- `XCommand` (command.rs:161-166): executable path, args and env, all held
as C strings (marshaled before any fork). -/
structure XCommand where
  command : Bytes
  args : List Bytes
  env : List EnvVar
deriving DecidableEq, Repr

/-- `XCommandBuilder` (command.rs:285-289). -/
structure XCommandBuilder where
  command : Bytes
  args : List Bytes
  env : List EnvVar
deriving DecidableEq, Repr

/-- `XCommandBuilder::new` (command.rs:292-299): converts the path with
`path_to_cstring`; `none` models the panic inside `path_to_cstring` when the
path holds a NUL byte. -/
def XCommandBuilder.new (command : Bytes) : Option XCommandBuilder :=
  (path_to_cstring command).map fun c => ⟨c, [], []⟩

/-- `XCommandBuilder::arg` (command.rs:302-308): convert one argument with
`CString::new`, bail with an error when it holds a NUL byte, else push it. -/
def XCommandBuilder.arg (b : XCommandBuilder) (a : Bytes) :
    Except String XCommandBuilder :=
  match cstring_new a with
  | none => .error "Unable to create CString"
  | some c => .ok { b with args := b.args ++ [c] }

/-- `XCommandBuilder::args` (command.rs:312-323): convert every argument,
bailing at the first one holding a NUL byte, and replace the current args.
(Named `argsSet` because `args` is already the field projection.) -/
def XCommandBuilder.argsSet (b : XCommandBuilder) (as : List Bytes) :
    Except String XCommandBuilder :=
  match as.mapM cstring_new with
  | none => .error "Unable to create CString"
  | some cs => .ok { b with args := cs }

/-- `XCommandBuilder::build` (command.rs:326-332). -/
def XCommandBuilder.build (b : XCommandBuilder) : XCommand :=
  ⟨b.command, b.args, b.env⟩

/-- All byte buffers held by a command are null-free. -/
def XCommand.nullFreeBuffers (c : XCommand) : Prop :=
  0 ∉ c.command ∧ (∀ a ∈ c.args, 0 ∉ a) ∧
    (∀ v ∈ c.env, 0 ∉ v.key ∧ 0 ∉ v.value)

/-- Builders reachable through the public construction interface:
`XCommandBuilder::new` followed by any sequence of `arg` / `args` calls. -/
inductive BuilderReachable : XCommandBuilder → Prop
  | new (p : Bytes) (b : XCommandBuilder) :
      XCommandBuilder.new p = some b → BuilderReachable b
  | arg (b : XCommandBuilder) (a : Bytes) (b' : XCommandBuilder) :
      BuilderReachable b → b.arg a = .ok b' → BuilderReachable b'
  | argsSet (b : XCommandBuilder) (as : List Bytes) (b' : XCommandBuilder) :
      BuilderReachable b → b.argsSet as = .ok b' → BuilderReachable b'

/-- `XChildHandle` (command.rs:53-57): pid and the two master descriptors. -/
structure XChildHandle where
  pid : Nat
  stdout : Int
  stderr : Int
deriving DecidableEq, Repr

/-- Outcome of the `fork()` syscall, supplied by the OS. -/
inductive ForkOutcome
  | failed
  | forked (childPid : Nat)
deriving DecidableEq, Repr

/-- What the child process becomes after the child branch of `spawn`
(command.rs:255-280): either `execve` replaced the process image, or exec
failed and the child terminated itself via `std::process::exit(1)`. -/
inductive ChildAct
  | execReplaced
  | selfExit (code : Int)
deriving DecidableEq, Repr

/-- Child branch of `spawn` (command.rs:255-280): close masters, dup the
pty slaves onto stdout/stderr, exec; on exec failure exit with code 1. -/
def child_branch (execOk : Bool) : ChildAct :=
  if execOk then .execReplaced else .selfExit 1

/-- `XCommand::spawn` (command.rs:217-282).  `fk` is the OS fork outcome,
`execve_succeeds` is the OS oracle for whether `execve` succeeds on this
command (e.g. false when the executable path does not exist).  The parent
branch returns a handle unconditionally — the parent never inspects the
command's validity; the child outcome is reported alongside for analysis. -/
def XCommand.spawn (cmd : XCommand) (fk : ForkOutcome)
    (stdout_master stderr_master : Int) (execve_succeeds : XCommand → Bool) :
    Except String (XChildHandle × ChildAct) :=
  match fk with
  | .failed => .error "fork() failed"
  | .forked child =>
      .ok (⟨child, stdout_master, stderr_master⟩,
           child_branch (execve_succeeds cmd))

/-- `nix::sys::wait::WaitStatus`, restricted to the variants relevant here. -/
inductive WaitStatus
  | Exited (pid : Nat) (code : Int)
  | Signaled (pid : Nat) (signal : Nat) (coreDumped : Bool)
  | Stopped (pid : Nat) (signal : Nat)
  | Continued (pid : Nat)
  | StillAlive
deriving DecidableEq, Repr

/-- Status is in the set the design expects from a single non-job-controlled
child: `Exited` or `Signaled`. -/
def WaitStatus.isExitedOrSignaled : WaitStatus → Bool
  | .Exited _ _ => true
  | .Signaled _ _ _ => true
  | _ => false

/-- Mapping of the wait status to an exit code in `run` (main.rs:122-132):
`Exited(_, code) => code`, `Signaled(_, signal, _) => signal as i32`,
`Stopped(_, signal) => signal as i32`, anything else bails. -/
def runStatusCode : WaitStatus → Except String Int
  | .Exited _ code => .ok code
  | .Signaled _ signal _ => .ok (signal : Int)
  | .Stopped _ signal => .ok (signal : Int)
  | _ => .error "Unexpected wait status"

/-- `CommandResult` (main.rs:91-96). -/
structure CommandResult where
  stdout : String
  stderr : String
  code : Int
deriving DecidableEq, Repr

/-- Parent side of `run` (main.rs:98-162) after a successful fork:
wait for the child, map its status to a code (bailing on unexpected states),
read the single pty master into `stdout`, and set `stderr` to the literal
placeholder string.  `masterBuf` is the content buffered in the pty. -/
def run (masterBuf : String) (status : WaitStatus) :
    Except String CommandResult :=
  match runStatusCode status with
  | .error e => .error e
  | .ok code => .ok ⟨masterBuf, "TODO", code⟩

/-- Child-side descriptor wiring of `run` (main.rs:147-150): the single pty
slave is duplicated onto stdin (0), stdout (1) and stderr (2). -/
def run_child_dups (slave : Int) : List (Int × Int) :=
  [(slave, 0), (slave, 1), (slave, 2)]

/-- Tail of `main` (main.rs:444-475): `std::process::exit(res.code)` —
the process exit code is the `code` field unchanged. -/
def main_exit_code (res : CommandResult) : Int :=
  res.code

/-!
The output multiplexer, `XChildHandle::stream` (command.rs:71-152).

Each per-descriptor wrapper stream is `while let Some(Ok(item)) = reader.next()
{ yield item }`: the underlying line reader produces a sequence of
`Result<String, io::Error>` items and the wrapper yields the longest prefix of
`Ok` lines, ending silently at the first `Err` (e.g. a UTF-8 decoding failure)
or at the end of the reader.  The select loop is `tokio::select!` with
`biased;`: the `StreamMap` branch is polled before the exit-watcher branch,
so a ready output line always wins over a ready exit status.  Once the exit
branch runs, it drains the map to exhaustion, closes both masters, and
matches the wait status: `Exited`/`Signaled` end the stream (yielding
nothing further), any other status panics.
-/

/-- The wrapper streams of command.rs:92-104: the longest prefix of `Ok`
lines of the reader's item sequence; the first error ends the stream. -/
def okLines : List (Except String String) → List String
  | [] => []
  | .ok s :: rest => s :: okLines rest
  | .error _ :: _ => []

/-- One scheduling observation for a select-loop iteration: whether each
wrapper stream has a line ready, which of the two the `StreamMap` would
serve first when both are ready, and whether the exit watcher has resolved. -/
structure Readiness where
  outReady : Bool
  errReady : Bool
  preferOut : Bool
  exitReady : Bool
deriving DecidableEq, Repr

/-- The branch a select-loop iteration takes. -/
inductive SelectBranch
  | yieldOut
  | yieldErr
  | exitBranch
  | blocked
deriving DecidableEq, Repr

/-- `tokio::select! { biased; ... }` of command.rs:110-117: the map branch is
polled first, so it wins whenever either stream has a line ready (`outAvail`/
`errAvail` say whether lines remain at all); only when no line is ready is
the exit branch taken, and only if the exit watcher has resolved. -/
def selectBiased (r : Readiness) (outAvail errAvail : Bool) : SelectBranch :=
  if r.outReady && outAvail && (r.preferOut || !(r.errReady && errAvail)) then
    .yieldOut
  else if r.errReady && errAvail then .yieldErr
  else if r.exitReady then .exitBranch
  else .blocked

/-- The drain loop of command.rs:121-125: `while let Some(output) =
map.next().await` blocks until every remaining line of both streams has been
yielded.  `cs` fixes the (otherwise arbitrary) interleaving of the two tags;
once it runs out the remaining stdout lines come first.  Every line of both
lists appears in the result. -/
def drainInterleave : List Bool → List String → List String →
    List (StdioType × String)
  | [], outs, errs =>
      outs.map (fun o => (StdioType.Stdout, o)) ++
        errs.map (fun e => (StdioType.Stderr, e))
  | c :: cs, outs, errs =>
    if c then
      match outs with
      | o :: outs' => (StdioType.Stdout, o) :: drainInterleave cs outs' errs
      | [] =>
        match errs with
        | e :: errs' => (StdioType.Stderr, e) :: drainInterleave cs [] errs'
        | [] => []
    else
      match errs with
      | e :: errs' => (StdioType.Stderr, e) :: drainInterleave cs outs errs'
      | [] =>
        match outs with
        | o :: outs' => (StdioType.Stdout, o) :: drainInterleave cs outs' []
        | [] => []

/-- How a run of the select loop ends: a normal return (after `Exited` or
`Signaled`), or a panic on any other wait status. -/
inductive MuxOutcome
  | finished
  | panicked (status : WaitStatus)
deriving DecidableEq, Repr

/-- A completed run of the select loop: the yielded `(tag, line)` events —
the stream's item type carries no exit-status variant — the descriptors
closed (in order), and how the loop ended. -/
structure MuxRun where
  events : List (StdioType × String)
  closed : List Int
  outcome : MuxOutcome
deriving DecidableEq, Repr

/-- The effect of one select-loop iteration: an output event was yielded
(with the streams' remaining lines updated), the exit branch ran, nothing
was ready (the loop blocks and retries), or the impossible case that the
biased select chose a stream with no line left. -/
inductive StepAct
  | yielded (ev : StdioType × String) (outs errs : List String)
  | exited
  | blocked
  | stuck
deriving DecidableEq, Repr

/-- One iteration of the select loop of command.rs:110-117: run the biased
select on the current readiness and pop the chosen stream's next line. -/
def muxSelectStep (r : Readiness) (outs errs : List String) : StepAct :=
  match selectBiased r (!outs.isEmpty) (!errs.isEmpty) with
  | .yieldOut =>
    match outs with
    | o :: outs' => .yielded (StdioType.Stdout, o) outs' errs
    | [] => .stuck
  | .yieldErr =>
    match errs with
    | e :: errs' => .yielded (StdioType.Stderr, e) outs errs'
    | [] => .stuck
  | .exitBranch => .exited
  | .blocked => .blocked

/-- The exit branch of the select loop (command.rs:118-148): drain both
streams to exhaustion, close both masters (stdout first, stderr second),
then match the wait status — `Exited`/`Signaled` return normally, any other
status panics. -/
def muxExitBranch (handle : XChildHandle) (status : WaitStatus)
    (dcs : List Bool) (outs errs : List String)
    (acc : List (StdioType × String)) : MuxRun :=
  let events := acc ++ drainInterleave dcs outs errs
  let closed := [handle.stdout, handle.stderr]
  match status with
  | .Exited _ _ => ⟨events, closed, .finished⟩
  | .Signaled _ _ _ => ⟨events, closed, .finished⟩
  | s => ⟨events, closed, .panicked s⟩

/-- The select loop of command.rs:110-150, driven by a readiness schedule.
`outs`/`errs` are the lines the two wrapper streams have yet to yield,
`status` the wait status the exit watcher will deliver, `dcs` the drain
interleaving.  `none` means the schedule ended with the loop still running. -/
def runMuxAux (handle : XChildHandle) (status : WaitStatus) (dcs : List Bool) :
    List Readiness → List String → List String →
    List (StdioType × String) → Option MuxRun
  | [], _, _, _ => none
  | r :: rs, outs, errs, acc =>
    match muxSelectStep r outs errs with
    | .yielded ev outs' errs' =>
        runMuxAux handle status dcs rs outs' errs' (acc ++ [ev])
    | .exited => some (muxExitBranch handle status dcs outs errs acc)
    | .blocked => runMuxAux handle status dcs rs outs errs acc
    | .stuck => none

/-- `XChildHandle::stream` (command.rs:71-152) as a whole-run function. -/
def runMux (handle : XChildHandle) (status : WaitStatus)
    (sched : List Readiness) (dcs : List Bool) (outs errs : List String) :
    Option MuxRun :=
  runMuxAux handle status dcs sched outs errs []

/-- Projection of the event sequence onto one tag's lines. -/
def tagLines (t : StdioType) (events : List (StdioType × String)) :
    List String :=
  events.filterMap fun p => if p.1 = t then some p.2 else none

/-! Helper lemmas. -/

theorem tagLines_append (t : StdioType) (a b : List (StdioType × String)) :
    tagLines t (a ++ b) = tagLines t a ++ tagLines t b := by
  simp [tagLines]

theorem tagLines_out_single (o : String) :
    tagLines .Stdout [(StdioType.Stdout, o)] = [o] := by
  simp [tagLines]

theorem tagLines_err_single (e : String) :
    tagLines .Stderr [(StdioType.Stderr, e)] = [e] := by
  simp [tagLines]

theorem tagLines_out_err (e : String) :
    tagLines .Stdout [(StdioType.Stderr, e)] = [] := by
  simp [tagLines]

theorem tagLines_err_out (o : String) :
    tagLines .Stderr [(StdioType.Stdout, o)] = [] := by
  simp [tagLines]

theorem tagLines_cons (t : StdioType) (p : StdioType × String)
    (l : List (StdioType × String)) :
    tagLines t (p :: l) =
      (if p.1 = t then [p.2] else []) ++ tagLines t l := by
  simp only [tagLines, List.filterMap_cons]
  split <;> simp_all

theorem tagLines_map_same (t : StdioType) (l : List String) :
    tagLines t (l.map fun s => (t, s)) = l := by
  induction l with
  | nil => simp [tagLines]
  | cons s l ih => simpa [tagLines_cons] using ih

theorem tagLines_map_other (t u : StdioType) (h : u ≠ t) (l : List String) :
    tagLines t (l.map fun s => (u, s)) = [] := by
  induction l with
  | nil => simp [tagLines]
  | cons s l ih => simpa [tagLines_cons, h] using ih

/-- The drain loop yields every remaining stdout line, in order. -/
theorem tagLines_drain_out : ∀ (cs : List Bool) (outs errs : List String),
    tagLines .Stdout (drainInterleave cs outs errs) = outs := by
  intro cs
  induction cs with
  | nil =>
    intro outs errs
    rw [drainInterleave, tagLines_append, tagLines_map_same,
      tagLines_map_other _ _ (by simp), List.append_nil]
  | cons c cs ih =>
    intro outs errs
    cases c with
    | true =>
      cases outs with
      | cons o outs' => rw [drainInterleave.eq_def]; simp [tagLines_cons, ih outs' errs]
      | nil =>
        cases errs with
        | cons e errs' => rw [drainInterleave.eq_def]; simp [tagLines_cons, ih [] errs']
        | nil => rw [drainInterleave.eq_def]; simp [tagLines]
    | false =>
      cases errs with
      | cons e errs' => rw [drainInterleave.eq_def]; simp [tagLines_cons, ih outs errs']
      | nil =>
        cases outs with
        | cons o outs' => rw [drainInterleave.eq_def]; simp [tagLines_cons, ih outs' []]
        | nil => rw [drainInterleave.eq_def]; simp [tagLines]

/-- The drain loop yields every remaining stderr line, in order. -/
theorem tagLines_drain_err : ∀ (cs : List Bool) (outs errs : List String),
    tagLines .Stderr (drainInterleave cs outs errs) = errs := by
  intro cs
  induction cs with
  | nil =>
    intro outs errs
    rw [drainInterleave, tagLines_append, tagLines_map_same,
      tagLines_map_other _ _ (by simp), List.nil_append]
  | cons c cs ih =>
    intro outs errs
    cases c with
    | true =>
      cases outs with
      | cons o outs' => rw [drainInterleave.eq_def]; simp [tagLines_cons, ih outs' errs]
      | nil =>
        cases errs with
        | cons e errs' => rw [drainInterleave.eq_def]; simp [tagLines_cons, ih [] errs']
        | nil => rw [drainInterleave.eq_def]; simp [tagLines]
    | false =>
      cases errs with
      | cons e errs' => rw [drainInterleave.eq_def]; simp [tagLines_cons, ih outs errs']
      | nil =>
        cases outs with
        | cons o outs' => rw [drainInterleave.eq_def]; simp [tagLines_cons, ih outs' []]
        | nil => rw [drainInterleave.eq_def]; simp [tagLines]

/-- Inversion for a yielded step: the biased select popped the head of one of
the two streams and left the other untouched. -/
theorem muxSelectStep_yielded (r : Readiness) (outs errs : List String)
    (ev : StdioType × String) (outs' errs' : List String)
    (h : muxSelectStep r outs errs = .yielded ev outs' errs') :
    (∃ o, ev = (StdioType.Stdout, o) ∧ outs = o :: outs' ∧ errs' = errs) ∨
    (∃ e, ev = (StdioType.Stderr, e) ∧ errs = e :: errs' ∧ outs' = outs) := by
  unfold muxSelectStep at h
  cases hsel : selectBiased r (!outs.isEmpty) (!errs.isEmpty) <;>
    rw [hsel] at h
  · cases outs with
    | nil => simp at h
    | cons o os =>
      simp only [StepAct.yielded.injEq] at h
      exact Or.inl ⟨o, h.1.symm, by simp [h.2.1], h.2.2.symm⟩
  · cases errs with
    | nil => simp at h
    | cons e es =>
      simp only [StepAct.yielded.injEq] at h
      exact Or.inr ⟨e, h.1.symm, by simp [h.2.2], h.2.1.symm⟩
  · simp at h
  · simp at h

/-- The exit branch preserves every pending line, closes both masters in
order, and finishes exactly on `Exited`/`Signaled`, panicking otherwise. -/
theorem muxExitBranch_spec (handle : XChildHandle) (status : WaitStatus)
    (dcs : List Bool) (outs errs : List String)
    (acc : List (StdioType × String)) :
    tagLines .Stdout (muxExitBranch handle status dcs outs errs acc).events =
      tagLines .Stdout acc ++ outs ∧
    tagLines .Stderr (muxExitBranch handle status dcs outs errs acc).events =
      tagLines .Stderr acc ++ errs ∧
    (muxExitBranch handle status dcs outs errs acc).closed =
      [handle.stdout, handle.stderr] ∧
    (status.isExitedOrSignaled = true →
      (muxExitBranch handle status dcs outs errs acc).outcome = .finished) ∧
    (status.isExitedOrSignaled = false →
      (muxExitBranch handle status dcs outs errs acc).outcome =
        .panicked status) := by
  unfold muxExitBranch
  cases status <;>
    simp [tagLines_append, tagLines_drain_out, tagLines_drain_err,
      WaitStatus.isExitedOrSignaled]

/-- Master specification of the select loop: whenever it completes, the event
sequence carries every pending line of each stream in order (after whatever
was already accumulated), both master descriptors are closed exactly once —
stdout master first, then stderr master — and the outcome is a normal return
for `Exited`/`Signaled` and a panic for every other wait status. -/
theorem runMuxAux_spec (handle : XChildHandle) (status : WaitStatus)
    (dcs : List Bool) :
    ∀ (sched : List Readiness) (outs errs : List String)
      (acc : List (StdioType × String)) (mr : MuxRun),
      runMuxAux handle status dcs sched outs errs acc = some mr →
      tagLines .Stdout mr.events = tagLines .Stdout acc ++ outs ∧
      tagLines .Stderr mr.events = tagLines .Stderr acc ++ errs ∧
      mr.closed = [handle.stdout, handle.stderr] ∧
      (status.isExitedOrSignaled = true → mr.outcome = .finished) ∧
      (status.isExitedOrSignaled = false → mr.outcome = .panicked status) := by
  intro sched
  induction sched with
  | nil =>
    intro outs errs acc mr h
    simp [runMuxAux] at h
  | cons r rs ih =>
    intro outs errs acc mr h
    rw [runMuxAux] at h
    cases hstep : muxSelectStep r outs errs with
    | yielded ev outs' errs' =>
      rw [hstep] at h
      rcases muxSelectStep_yielded r outs errs ev outs' errs' hstep with
        ⟨o, hev, houts, herrs⟩ | ⟨e, hev, herrs, houts⟩
      · have hmain := ih outs' errs' (acc ++ [ev]) mr h
        rw [hev] at hmain
        rw [houts, ← herrs]
        simpa [tagLines_append, tagLines_out_single, tagLines_err_out]
          using hmain
      · have hmain := ih outs' errs' (acc ++ [ev]) mr h
        rw [hev] at hmain
        rw [herrs, ← houts]
        simpa [tagLines_append, tagLines_err_single, tagLines_out_err]
          using hmain
    | exited =>
      rw [hstep] at h
      have hmr : mr = muxExitBranch handle status dcs outs errs acc :=
        (Option.some.injEq _ _ ▸ h).symm
      rw [hmr]
      exact muxExitBranch_spec handle status dcs outs errs acc
    | blocked =>
      rw [hstep] at h
      exact ih outs errs acc mr h
    | stuck =>
      rw [hstep] at h
      simp at h

theorem cstring_new_some (b c : Bytes) (h : cstring_new b = some c) :
    c = b ∧ 0 ∉ b := by
  unfold cstring_new at h
  split at h <;> simp_all

theorem cstring_new_nul (b : Bytes) (h : 0 ∈ b) : cstring_new b = none := by
  simp [cstring_new, h]

theorem mapM_cstring_new_none (as : List Bytes) (a : Bytes) (ha : a ∈ as)
    (h0 : 0 ∈ a) : as.mapM cstring_new = none := by
  induction as with
  | nil => cases ha
  | cons b bs ih =>
    rw [List.mapM_cons]
    rcases List.mem_cons.mp ha with rfl | hmem
    · simp [cstring_new_nul _ h0]
    · cases hb : cstring_new b
      · simp
      · rw [ih hmem]; simp

theorem mapM_cstring_new_some (as : List Bytes) :
    ∀ cs : List Bytes, as.mapM cstring_new = some cs → ∀ c ∈ cs, 0 ∉ c := by
  induction as with
  | nil =>
    intro cs h
    rw [List.mapM_nil] at h
    cases h
    simp
  | cons b bs ih =>
    intro cs h
    rw [List.mapM_cons] at h
    cases hb : cstring_new b with
    | none => rw [hb] at h; simp at h
    | some c0 =>
      rw [hb] at h
      cases hbs : bs.mapM cstring_new with
      | none => rw [hbs] at h; simp at h
      | some cs' =>
        rw [hbs] at h
        simp only [Option.bind_eq_bind, Option.some_bind, Option.pure_def,
          Option.some.injEq] at h
        intro c hc
        rw [← h] at hc
        rcases List.mem_cons.mp hc with rfl | hmem
        · exact (cstring_new_some b c hb).2.imp
            (fun hx => ((cstring_new_some b c hb).1 ▸ hx))
        · exact ih cs' hbs c hmem

/-- All byte buffers held by a builder are null-free. -/
def XCommandBuilder.nullFree (b : XCommandBuilder) : Prop :=
  0 ∉ b.command ∧ (∀ a ∈ b.args, 0 ∉ a) ∧
    (∀ v ∈ b.env, 0 ∉ v.key ∧ 0 ∉ v.value)

/-- Every builder reachable through `new`/`arg`/`args` holds only null-free
byte buffers. -/
theorem builderReachable_nullFree (b : XCommandBuilder)
    (h : BuilderReachable b) : b.nullFree := by
  induction h with
  | new p b hnew =>
    unfold XCommandBuilder.new path_to_cstring at hnew
    cases hc : cstring_new p with
    | none => rw [hc] at hnew; simp at hnew
    | some c =>
      rw [hc] at hnew
      simp only [Option.map] at hnew
      obtain ⟨rfl, h0⟩ := cstring_new_some p c hc
      cases hnew
      refine ⟨h0, ?_, ?_⟩ <;> intro x hx <;> simp at hx
  | arg b a b' hb harg ih =>
    unfold XCommandBuilder.arg at harg
    cases hc : cstring_new a with
    | none => rw [hc] at harg; cases harg
    | some c =>
      rw [hc] at harg
      cases harg
      obtain ⟨rfl, h0⟩ := cstring_new_some a c hc
      refine ⟨ih.1, ?_, ih.2.2⟩
      intro x hx
      rcases List.mem_append.mp hx with hx | hx
      · exact ih.2.1 x hx
      · rcases List.mem_singleton.mp hx with rfl
        exact h0
  | argsSet b as b' hb hset ih =>
    unfold XCommandBuilder.argsSet at hset
    cases hcs : as.mapM cstring_new with
    | none => rw [hcs] at hset; cases hset
    | some cs =>
      rw [hcs] at hset
      cases hset
      exact ⟨ih.1, mapM_cstring_new_some as cs hcs, ih.2.2⟩

/-- A read failure ends the wrapper stream: only the error-free prefix of the
reader's items is yielded; the failing read and everything after it from
that descriptor is dropped silently. -/
theorem okLines_untilErr (pre : List String) (e : String)
    (rest : List (Except String String)) :
    okLines (pre.map Except.ok ++ Except.error e :: rest) = pre := by
  induction pre with
  | nil => simp [okLines]
  | cons s l ih => simp [okLines, ih]

/-! Claim theorems. -/

/-- Claim C1: the stream is supposed to end with the terminal `ExitStatus` as
its final element, but the source's select loop closes both masters and
simply returns — the `return Ok(XStatus::Exited(..))` lines of
command.rs:135/141 are commented out next to a TODO asking how to return the
status, and the stream's item type `(StdioType, String)` has no status
variant at all.  At the failing input — a child that prints one stdout line
and exits 0 — the complete event sequence is the single stdout line, the
masters are closed, and no `Exited(0)` element follows. -/
theorem c1_stream_never_yields_exit_status :
    runMux ⟨7, 5, 6⟩ (.Exited 7 0)
      [⟨true, false, true, true⟩, ⟨false, false, false, true⟩] []
      ["hello"] [] =
      some ⟨[(StdioType.Stdout, "hello")], [5, 6], .finished⟩ := by
  rfl

/-- Claim C2 (confirmed): when the exit watcher resolves, the select loop does
not terminate immediately — every line still pending in either wrapper
stream appears in the event sequence of any completed run, each tag's lines
in order, so a final line buffered at exit time is never lost; and both
master descriptors are closed exactly once each, only in the exit branch
after that drain. -/
theorem c2_drain_after_exit (handle : XChildHandle) (status : WaitStatus)
    (sched : List Readiness) (dcs : List Bool) (outs errs : List String)
    (mr : MuxRun) (h : runMux handle status sched dcs outs errs = some mr) :
    tagLines .Stdout mr.events = outs ∧
    tagLines .Stderr mr.events = errs ∧
    mr.closed = [handle.stdout, handle.stderr] := by
  have hs := runMuxAux_spec handle status dcs sched outs errs [] mr h
  exact ⟨by simpa [tagLines] using hs.1, by simpa [tagLines] using hs.2.1,
    hs.2.2.1⟩

/-- Witness for C2: the race input — the exit watcher is ready on the very
first iteration while the line "last" is still buffered in the stdout
stream; the completed run still contains "last". -/
theorem c2_drain_after_exit_witness :
    tagLines .Stdout
        (MuxRun.events ⟨[(StdioType.Stdout, "last")], [5, 6], .finished⟩) =
      ["last"] ∧
    tagLines .Stderr
        (MuxRun.events ⟨[(StdioType.Stdout, "last")], [5, 6], .finished⟩) =
      [] ∧
    MuxRun.closed ⟨[(StdioType.Stdout, "last")], [5, 6], .finished⟩ =
      [(5 : Int), 6] :=
  c2_drain_after_exit ⟨1, 5, 6⟩ (.Exited 1 0) [⟨false, false, false, true⟩]
    [] ["last"] [] ⟨[(StdioType.Stdout, "last")], [5, 6], .finished⟩ (by rfl)

/-- Claim C3 is false on the code: the wrapper loop `while let Some(Ok(item))`
(command.rs:92-104) ends the affected stream at the first per-line read
failure instead of continuing with subsequent lines.  Concretely, for reader
items ok "a", error, ok "b", the stream yields only ["a"] — the line "b"
after the failure is never produced. -/
theorem c3_failure_not_local_cex :
    okLines [Except.ok "a", Except.error "bad utf8", Except.ok "b"] =
      ["a"] ∧
    "b" ∉ okLines [Except.ok "a", Except.error "bad utf8", Except.ok "b"] := by
  refine ⟨rfl, ?_⟩
  rw [show okLines [Except.ok "a", Except.error "bad utf8", Except.ok "b"] =
    ["a"] from rfl]
  decide

/-- Claim C3 (amended): a per-line read failure silently terminates the
affected descriptor's stream — the failing read and every line after it from
that descriptor are dropped, and no error enters the event sequence — while
the other descriptor's stream is unaffected: any completed run of the
multiplexer still carries the other tag's full line list. -/
theorem c3_failure_ends_stream_only (pre : List String) (e : String)
    (rest : List (Except String String)) (handle : XChildHandle)
    (status : WaitStatus) (sched : List Readiness) (dcs : List Bool)
    (rawErr : List (Except String String)) (mr : MuxRun)
    (h : runMux handle status sched dcs
      (okLines (pre.map Except.ok ++ Except.error e :: rest))
      (okLines rawErr) = some mr) :
    okLines (pre.map Except.ok ++ Except.error e :: rest) = pre ∧
    tagLines .Stdout mr.events = pre ∧
    tagLines .Stderr mr.events = okLines rawErr := by
  have hs := runMuxAux_spec handle status dcs sched _ _ [] mr h
  refine ⟨okLines_untilErr pre e rest, ?_, ?_⟩
  · simpa [tagLines, okLines_untilErr] using hs.1
  · simpa [tagLines] using hs.2.1

/-- Witness for the amended C3: stdout reader fails after "a" (dropping "b"),
stderr reader delivers "x"; the completed run carries exactly ["a"] for
stdout and the full ["x"] for stderr. -/
theorem c3_failure_ends_stream_only_witness :
    okLines (["a"].map Except.ok ++
      Except.error "broken" :: [Except.ok "b"]) = ["a"] ∧
    tagLines .Stdout
        (MuxRun.events ⟨[(StdioType.Stdout, "a"), (StdioType.Stderr, "x")],
          [5, 6], .finished⟩) = ["a"] ∧
    tagLines .Stderr
        (MuxRun.events ⟨[(StdioType.Stdout, "a"), (StdioType.Stderr, "x")],
          [5, 6], .finished⟩) = okLines [Except.ok "x"] :=
  c3_failure_ends_stream_only ["a"] "broken" [Except.ok "b"] ⟨1, 5, 6⟩
    (.Exited 1 0) [⟨false, false, false, true⟩] [] [Except.ok "x"]
    ⟨[(StdioType.Stdout, "a"), (StdioType.Stderr, "x")], [5, 6], .finished⟩
    (by rfl)

/-- Claim C4 (confirmed): argument and environment values are marshaled into
null-free byte buffers at builder time, before `spawn` and hence before any
fork: a value with an interior NUL makes `arg`/`args` return an encoding
error to the caller, so no command containing it is ever built and no
process side effect occurs; and every command built from a reachable builder
holds only null-free buffers by the time `spawn` hands them to fork. -/
theorem c4_marshal_before_fork :
    (∀ (b : XCommandBuilder) (a : Bytes), 0 ∈ a →
      b.arg a = .error "Unable to create CString") ∧
    (∀ (b : XCommandBuilder) (as : List Bytes) (a : Bytes), a ∈ as → 0 ∈ a →
      b.argsSet as = .error "Unable to create CString") ∧
    (∀ b : XCommandBuilder, BuilderReachable b →
      XCommand.nullFreeBuffers b.build) := by
  refine ⟨?_, ?_, ?_⟩
  · intro b a h
    unfold XCommandBuilder.arg
    rw [cstring_new_nul a h]
  · intro b as a ha h0
    unfold XCommandBuilder.argsSet
    rw [mapM_cstring_new_none as a ha h0]
  · intro b hb
    have hn := builderReachable_nullFree b hb
    exact ⟨hn.1, hn.2.1, hn.2.2⟩

/-- Witness for C4: the arg and args methods reject a NUL-holding value. -/
theorem c4_marshal_before_fork_witness :
    XCommandBuilder.arg ⟨[116], [], []⟩ [0] =
      .error "Unable to create CString" ∧
    XCommandBuilder.argsSet ⟨[116], [], []⟩ [[1], [0]] =
      .error "Unable to create CString" :=
  ⟨c4_marshal_before_fork.1 ⟨[116], [], []⟩ [0] (by decide),
   c4_marshal_before_fork.2.1 ⟨[116], [], []⟩ [[1], [0]] [0] (by decide)
     (by decide)⟩

/-- Claim C5 (confirmed): the biased select of command.rs:110-117 polls the
stream map before the exit watcher, so whenever an output line is available
from either reader the iteration yields an output event — it is never the
exit branch (nor a block, nor the impossible stuck case) that runs, even if
the exit watcher is ready at the same time. -/
theorem c5_output_priority (r : Readiness) (outs errs : List String)
    (h : (r.outReady = true ∧ outs ≠ []) ∨
      (r.errReady = true ∧ errs ≠ [])) :
    muxSelectStep r outs errs ≠ .exited ∧
    muxSelectStep r outs errs ≠ .blocked ∧
    muxSelectStep r outs errs ≠ .stuck := by
  rcases r with ⟨ro, re, po, xe⟩
  cases ro <;> cases re <;> cases po <;> cases xe <;> cases outs <;>
    cases errs <;> simp_all [muxSelectStep, selectBiased]

/-- Witness for C5: stdout line ready while the exit watcher is also ready —
the iteration still yields the line. -/
theorem c5_output_priority_witness :
    muxSelectStep ⟨true, false, true, true⟩ ["line"] [] ≠ .exited ∧
    muxSelectStep ⟨true, false, true, true⟩ ["line"] [] ≠ .blocked ∧
    muxSelectStep ⟨true, false, true, true⟩ ["line"] [] ≠ .stuck :=
  c5_output_priority ⟨true, false, true, true⟩ ["line"] []
    (Or.inl ⟨rfl, by decide⟩)

/-- Claim C6 is false on the code as stated: the synchronous run path
(main.rs:126) maps a `Stopped` wait status — outside Exited/Signaled — to an
ordinary result code (the stop signal number, here SIGSTOP = 19) and
continues, instead of treating it as fatal. -/
theorem c6_stopped_state_mapped_cex :
    runStatusCode (.Stopped 7 19) = .ok 19 := by
  rfl

/-- Claim C6 (amended): the multiplexer treats every wait result outside
Exited/Signaled as a fatal invariant violation (panic after closing the
descriptors); the synchronous run path, however, maps Stopped(sig) to the
ordinary result code sig and continues, and treats only wait results outside
Exited/Signaled/Stopped as fatal. -/
theorem c6_unexpected_state_fatal (status : WaitStatus)
    (handle : XChildHandle) (sched : List Readiness) (dcs : List Bool)
    (outs errs : List String) (mr : MuxRun) (pid sig : Nat)
    (hmux : runMux handle status sched dcs outs errs = some mr)
    (hst : status.isExitedOrSignaled = false) :
    mr.outcome = .panicked status ∧
    runStatusCode (.Stopped pid sig) = .ok (sig : Int) ∧
    runStatusCode (.Continued pid) = .error "Unexpected wait status" ∧
    runStatusCode .StillAlive = .error "Unexpected wait status" :=
  ⟨(runMuxAux_spec handle status dcs sched outs errs [] mr hmux).2.2.2.2 hst,
   rfl, rfl, rfl⟩

/-- Witness for the amended C6: a Stopped status makes the multiplexer panic
(after closing both masters) while the run path maps it to code 19. -/
theorem c6_unexpected_state_fatal_witness :
    MuxRun.outcome ⟨[(StdioType.Stderr, "e1")], [5, 6],
        .panicked (.Stopped 1 19)⟩ =
      .panicked (.Stopped 1 19) ∧
    runStatusCode (.Stopped 1 19) = .ok (19 : Int) ∧
    runStatusCode (.Continued 1) = .error "Unexpected wait status" ∧
    runStatusCode .StillAlive = .error "Unexpected wait status" :=
  c6_unexpected_state_fatal (.Stopped 1 19) ⟨1, 5, 6⟩
    [⟨false, false, false, true⟩] [] [] ["e1"]
    ⟨[(StdioType.Stderr, "e1")], [5, 6], .panicked (.Stopped 1 19)⟩ 1 19
    (by rfl) (by rfl)

/-- Claim C7's final clause is false on the code: with a nonexistent
executable the child exits 1 and waitpid reports Exited(pid, 1), but the
stream then merely drains, closes both masters and ends — it yields no
ExitStatus element at all (non-zero or otherwise), as the concrete run
shows: the event sequence is empty and the run just finishes. -/
theorem c7_no_terminal_status_cex :
    runMux ⟨9, 5, 6⟩ (.Exited 9 1) [⟨false, false, false, true⟩] [] [] [] =
      some ⟨[], [5, 6], .finished⟩ := by
  rfl

/-- Claim C7 (amended): spawning a command whose executable path does not
exist succeeds from the parent's perspective — spawn returns the handle with
no parent-side error — and the exec failure occurs only in the child, which
terminates itself with status 1 (non-zero); the handle's stream then
terminates (drains, closes both masters, finishes) upon the non-zero
Exited(1) status, but yields no ExitStatus element to the consumer. -/
theorem c7_spawn_nonexistent (cmd : XCommand) (pid : Nat) (sm em : Int)
    (pathExists : Bytes → Bool) (hpath : pathExists cmd.command = false)
    (sched : List Readiness) (dcs : List Bool) (mr : MuxRun)
    (hmux : runMux ⟨pid, sm, em⟩ (.Exited pid 1) sched dcs [] [] = some mr) :
    cmd.spawn (.forked pid) sm em (fun c => pathExists c.command) =
      .ok (⟨pid, sm, em⟩, .selfExit 1) ∧
    (1 : Int) ≠ 0 ∧
    mr.outcome = .finished ∧
    mr.closed = [sm, em] := by
  have hs :=
    runMuxAux_spec ⟨pid, sm, em⟩ (.Exited pid 1) dcs sched [] [] [] mr hmux
  refine ⟨?_, by decide, hs.2.2.2.1 rfl, hs.2.2.1⟩
  unfold XCommand.spawn child_branch
  simp [hpath]

/-- Witness for the amended C7: concrete command, fork pid 9, no path
exists; spawn hands back the handle and the exec-failed child's self-exit. -/
theorem c7_spawn_nonexistent_witness :
    XCommand.spawn ⟨[116], [], []⟩ (.forked 9) 5 6
        (fun c => (fun _ => false) c.command) =
      .ok (⟨9, 5, 6⟩, .selfExit 1) ∧
    (1 : Int) ≠ 0 ∧
    MuxRun.outcome ⟨[], [5, 6], .finished⟩ = .finished ∧
    MuxRun.closed ⟨[], [5, 6], .finished⟩ = [(5 : Int), 6] :=
  c7_spawn_nonexistent ⟨[116], [], []⟩ 9 5 6 (fun _ => false) rfl
    [⟨false, false, false, true⟩] [] ⟨[], [5, 6], .finished⟩ (by rfl)

/-- Claim C8 (confirmed): in the synchronous run path, a child terminated by
signal k yields a CommandResult whose code is the signal number k itself
(main.rs:125 maps `Signaled(_, signal, _)` to `signal as i32`), and main
passes exactly that code to process exit — a signal number reused directly
as a normal exit code. -/
theorem c8_signal_reused_as_code (pid k : Nat) (core : Bool) (buf : String) :
    run buf (.Signaled pid k core) = .ok ⟨buf, "TODO", (k : Int)⟩ ∧
    main_exit_code ⟨buf, "TODO", (k : Int)⟩ = (k : Int) :=
  ⟨rfl, rfl⟩

/-- Claim C9 (confirmed): every successful result of the synchronous run has
stderr equal to the literal placeholder "TODO" and stdout equal to the
single pty master's buffered content — the merged output of both streams,
since the child duplicates the one pty slave onto stdin (0), stdout (1) and
stderr (2); stderr is never separately captured. -/
theorem c9_stderr_placeholder (buf : String) (status : WaitStatus)
    (res : CommandResult) (h : run buf status = .ok res) (slave : Int) :
    res.stderr = "TODO" ∧ res.stdout = buf ∧
    run_child_dups slave = [(slave, 0), (slave, 1), (slave, 2)] := by
  unfold run at h
  cases hc : runStatusCode status with
  | error e => rw [hc] at h; cases h
  | ok code => rw [hc] at h; cases h; exact ⟨rfl, rfl, rfl⟩

/-- Witness for C9 at a concrete successful run. -/
theorem c9_stderr_placeholder_witness :
    CommandResult.stderr ⟨"merged", "TODO", 0⟩ = "TODO" ∧
    CommandResult.stdout ⟨"merged", "TODO", 0⟩ = "merged" ∧
    run_child_dups 3 = [(3, 0), (3, 1), (3, 2)] :=
  c9_stderr_placeholder "merged" (.Exited 1 0) ⟨"merged", "TODO", 0⟩
    (by rfl) 3

/-- Claim C10 (confirmed): a builder constructed with an executable path
holding an interior NUL byte panics — `XCommandBuilder::new` goes through
`path_to_cstring`, whose `CString::new(..).unwrap()` is modelled by `none` —
whereas the same bytes passed to the `arg` builder method produce a
recoverable encoding error instead. -/
theorem c10_path_nul_panics (path : Bytes) (b : XCommandBuilder)
    (h : 0 ∈ path) :
    XCommandBuilder.new path = none ∧
    path_to_cstring path = none ∧
    b.arg path = .error "Unable to create CString" := by
  refine ⟨?_, ?_, ?_⟩
  · unfold XCommandBuilder.new path_to_cstring
    rw [cstring_new_nul path h]
    rfl
  · unfold path_to_cstring
    exact cstring_new_nul path h
  · unfold XCommandBuilder.arg
    rw [cstring_new_nul path h]

/-- Witness for C10 at a concrete NUL-holding path. -/
theorem c10_path_nul_panics_witness :
    XCommandBuilder.new [116, 0] = none ∧
    path_to_cstring [116, 0] = none ∧
    XCommandBuilder.arg ⟨[116], [], []⟩ [116, 0] =
      .error "Unable to create CString" :=
  c10_path_nul_panics [116, 0] ⟨[116], [], []⟩ (by decide)

end Taskhelper
